import Mathlib

/-!
A shallow embedding of the recipe-management backend
(`Saddem-Khadra/reciepe-app-api`): user accounts with token
authentication and recipe/tag/ingredient resources scoped per user.

The repository ships its tests (`core/tests`, `recipe/tests`,
`user/tests`) and the admin registration, but the application modules
they exercise (`core/models.py`, `user/serializers.py`, `user/views.py`,
`recipe/serializers.py`, `recipe/views.py`) are not part of the source
tree available here.  Every operation below is therefore modelled from
the specification's contracts (sections 3, 4.1-4.5 and 6 of the spec),
as flagged in each doc comment.  Password hashing, token opacity and
image decoding are external collaborators in the spec and are abstracted:
a stored password stands for its hash, and an uploaded file carries a
validity flag standing for "decodes as an image".
-/

namespace RecipeApp

/-- A user account row: email (unique, normalized at write time), name,
password (standing for its salted hash) and the active/staff/superuser
flags, per the spec's data model. -/
structure User where
  id : Nat
  email : String
  name : String
  password : String
  is_active : Bool
  is_staff : Bool
  is_superuser : Bool
  deriving Repr, DecidableEq

/-- A tag row: `{id, name, owning user reference}`. -/
structure Tag where
  id : Nat
  owner : Nat
  name : String
  deriving Repr, DecidableEq

/-- An ingredient row: `{id, name, owning user reference}`. -/
structure Ingredient where
  id : Nat
  owner : Nat
  name : String
  deriving Repr, DecidableEq

/-- A recipe row: owning user, scalar fields, optional link and image,
and the two relation sets stored as ID lists. -/
structure Recipe where
  id : Nat
  owner : Nat
  title : String
  time_minutes : Nat
  price : Nat
  link : Option String
  image : Option String
  tags : List Nat
  ingredients : List Nat
  deriving Repr, DecidableEq

/-- The whole persistent state: the four row stores. -/
structure AppState where
  users : List User
  tags : List Tag
  ingredients : List Ingredient
  recipes : List Recipe
  deriving Repr, DecidableEq

/-- Lower-case every character of a string (spelled out over the
character list so that concrete instances evaluate). -/
def lowerString (e : String) : String :=
  String.mk (e.data.map Char.toLower)

/-- Modelled from the spec: `core/models.py`'s user manager is not in
the source tree; the spec says "email is lower-cased before storage"
(section 4.5), so normalization lower-cases the entire address. -/
def normalizeEmail (email : String) : String :=
  lowerString email

/-- The public fields of a user returned by create/profile endpoints:
"Returns the created user's public fields (never the password/hash)";
"retrieval returns name+email" (spec 4.5). -/
structure PublicUser where
  email : String
  name : String
  deriving Repr, DecidableEq

/-- Render a user's public fields. -/
def publicOf (u : User) : PublicUser :=
  { email := u.email, name := u.name }

/-- A fresh row id: one more than the largest id in use. -/
def nextUserId (s : AppState) : Nat :=
  (s.users.map User.id).foldr max 0 + 1

/-- Response of the user-creation endpoint: 201 with the public fields,
or 400 on validation failure. -/
inductive CreateUserResult where
  | created (fields : PublicUser)
  | badRequest
  deriving Repr, DecidableEq

/-- Is some user with this (already normalized) email present? -/
def emailTaken (s : AppState) (email : String) : Bool :=
  s.users.any (fun u => u.email == email)

/-- Modelled from the spec: `user/serializers.py` and `user/views.py`
are not in the source tree.  Spec 4.5 Create: "requires email
(non-empty, syntactically valid) and password (minimum length 6
characters); email is lower-cased before storage; fails with a
validation error if email already registered or password too short."
Syntactic email validation beyond non-emptiness is abstracted.  On any
validation failure the state is returned unchanged (nothing persisted),
per spec 8: "Creating a user with an empty/absent email fails; no row
is persisted." -/
def createUserApi (s : AppState) (email pw name : String) :
    CreateUserResult × AppState :=
  if email = "" then (.badRequest, s)
  else if pw.length < 6 then (.badRequest, s)
  else if emailTaken s (normalizeEmail email) then (.badRequest, s)
  else
    let u : User :=
      { id := nextUserId s, email := normalizeEmail email, name := name,
        password := pw, is_active := true, is_staff := false,
        is_superuser := false }
    (.created (publicOf u), { s with users := u :: s.users })

/-- Modelled from the spec: `core/models.py`'s `create_user` is not in
the source tree.  Direct store-level creation (signup path of the data
model, spec 3 and 4.5): normalizes the email and stores the user with
default flags. -/
def create_user (s : AppState) (email pw name : String) :
    User × AppState :=
  let u : User :=
    { id := nextUserId s, email := normalizeEmail email, name := name,
      password := pw, is_active := true, is_staff := false,
      is_superuser := false }
  (u, { s with users := u :: s.users })

/-- Response of the token endpoint: 200 with a token, or a uniform 400
authentication failure carrying no information about which factor
failed. -/
inductive TokenResult where
  | ok (token : String)
  | badRequest
  deriving Repr, DecidableEq

/-- An opaque token bound to a user (token construction is an external
collaborator in the spec; only its binding to the user matters). -/
def tokenFor (u : User) : String :=
  "token:" ++ toString u.id

/-- Modelled from the spec: the token view (`user/views.py`) is not in
the source tree.  Spec 4.5 Token issuance: "given email+password,
verify against stored hash; on success return an opaque token string
bound to that user; on failure (wrong password, unknown email, missing
fields) return a uniform authentication-failure error without revealing
which factor failed." -/
def createToken (s : AppState) (email pw : String) : TokenResult :=
  if email = "" ∨ pw = "" then .badRequest
  else
    match s.users.find? (fun u => u.email == email) with
    | none => .badRequest
    | some u => if u.password == pw then .ok (tokenFor u) else .badRequest

/-- Modelled from the spec: the profile view (`user/views.py`) is not
in the source tree.  Spec 4.5: "retrieval returns name+email",
authenticated caller only (the caller's identity is the only valid
target). -/
def meRetrieve (s : AppState) (caller : Nat) : Option PublicUser :=
  (s.users.find? (fun u => u.id == caller)).map publicOf

/-- Modelled from the spec: the tag list endpoint (`recipe/views.py`)
is not in the source tree.  Ownership Filter (spec 4.1): the candidate
set is restricted to rows whose owner equals the caller. -/
def listTags (s : AppState) (caller : Nat) : List Tag :=
  s.tags.filter (fun t => t.owner == caller)

/-- Modelled from the spec: the ingredient list endpoint
(`recipe/views.py`) is not in the source tree; owner-restricted as for
tags. -/
def listIngredients (s : AppState) (caller : Nat) : List Ingredient :=
  s.ingredients.filter (fun i => i.owner == caller)

/-- A fresh tag id. -/
def nextTagId (s : AppState) : Nat :=
  (s.tags.map Tag.id).foldr max 0 + 1

/-- A fresh ingredient id. -/
def nextIngId (s : AppState) : Nat :=
  (s.ingredients.map Ingredient.id).foldr max 0 + 1

/-- Modelled from the spec: tag creation (`recipe/views.py`) is not in
the source tree.  Spec 4.1: "On create, silently force the owner field
to the caller's identity." -/
def createTagApi (s : AppState) (caller : Nat) (name : String) :
    Tag × AppState :=
  let t : Tag := { id := nextTagId s, owner := caller, name := name }
  (t, { s with tags := t :: s.tags })

/-- Modelled from the spec: ingredient creation (`recipe/views.py`) is
not in the source tree; owner stamped to the caller as for tags. -/
def createIngredientApi (s : AppState) (caller : Nat) (name : String) :
    Ingredient × AppState :=
  let i : Ingredient := { id := nextIngId s, owner := caller, name := name }
  (i, { s with ingredients := i :: s.ingredients })

/-- Does a list of linked ids satisfy an optional id-set filter?  Spec
4.2: "narrow results to recipes linked to at least one of the given
tags (set-union membership, not intersection)"; an absent parameter
does not narrow. -/
def matchesIds (idFilter : Option (List Nat)) (linked : List Nat) : Bool :=
  match idFilter with
  | none => true
  | some ids => ids.any (fun i => linked.contains i)

/-- Modelled from the spec: the recipe list queryset
(`recipe/views.py`) is not in the source tree.  Spec 4.1 + 4.2: rows
are restricted to the caller's, then narrowed by the optional tag and
ingredient id-set filters, whose effects intersect; with no parameters
all of the caller's recipes are returned.  Creation conses new rows at
the head, so the stored order already realizes the newest-id-first
response order. -/
def recipeListFiltered (s : AppState) (caller : Nat)
    (tagFilter ingFilter : Option (List Nat)) : List Recipe :=
  s.recipes.filter (fun r =>
    r.owner == caller && matchesIds tagFilter r.tags
      && matchesIds ingFilter r.ingredients)

/-- Parse one comma-separated token as a decimal identifier; a
malformed token yields `none` (spec 4.2: "malformed tokens fail the
request with a client error"). -/
def tokToNat (tok : List Char) : Option Nat :=
  if tok ≠ [] ∧ tok.all Char.isDigit then
    some (tok.foldl (fun n c => n * 10 + (c.toNat - 48)) 0)
  else none

/-- Modelled from the spec: query-parameter parsing (spec 4.2): "split
on comma, convert each token to an integer identifier". -/
def parseIdList (q : String) : Option (List Nat) :=
  (q.data.splitOn ',').mapM tokToNat

/-- Parse an optional query parameter: absent means no filter, present
means it must parse. -/
def parseParam (q : Option String) : Option (Option (List Nat)) :=
  match q with
  | none => some none
  | some str => (parseIdList str).map some

/-- Response of the recipe list endpoint. -/
inductive ListResult where
  | ok (recipes : List Recipe)
  | badRequest
  deriving Repr, DecidableEq

/-- Modelled from the spec: the full recipe list endpoint
(`recipe/views.py`), composing parameter parsing with the filtered
queryset. -/
def recipeListApi (s : AppState) (caller : Nat)
    (tagsParam ingParam : Option String) : ListResult :=
  match parseParam tagsParam, parseParam ingParam with
  | some tf, some igf => .ok (recipeListFiltered s caller tf igf)
  | _, _ => .badRequest

/-- Look up the caller's recipe with the given id; `none` is the
not-found rejection of spec 4.1 for rows outside the caller's set. -/
def findOwnedRecipe (s : AppState) (caller rid : Nat) : Option Recipe :=
  s.recipes.find? (fun r => r.id == rid && r.owner == caller)

/-- Modelled from the spec: recipe detail retrieval
(`recipe/views.py`); owner-restricted lookup, `none` meaning 404. -/
def detailRecipeApi (s : AppState) (caller rid : Nat) : Option Recipe :=
  findOwnedRecipe s caller rid

/-- A write payload for the recipe serializer (spec 4.3): scalar
fields plus optional raw-ID lists for tags/ingredients; `none` means
the key is absent from the payload.  A supplied owner field is ignored
(spec 4.1). -/
structure RecipePayload where
  owner : Option Nat
  title : Option String
  time_minutes : Option Nat
  price : Option Nat
  link : Option String
  tags : Option (List Nat)
  ingredients : Option (List Nat)
  deriving Repr, DecidableEq

/-- Do all the given tag ids denote tags owned by the caller?  (Spec 3:
"Tag/Ingredient references must belong to the same owning user as the
Recipe", enforced by the Ownership Filter at write time.) -/
def ownsAllTags (s : AppState) (caller : Nat) (ids : List Nat) : Bool :=
  ids.all (fun tid => s.tags.any (fun t => t.id == tid && t.owner == caller))

/-- Ingredient counterpart of `ownsAllTags`. -/
def ownsAllIngs (s : AppState) (caller : Nat) (ids : List Nat) : Bool :=
  ids.all (fun iid =>
    s.ingredients.any (fun i => i.id == iid && i.owner == caller))

/-- A fresh recipe id. -/
def nextRecipeId (s : AppState) : Nat :=
  (s.recipes.map Recipe.id).foldr max 0 + 1

/-- Status of a recipe mutation endpoint. -/
inductive MutResult where
  | ok
  | created
  | badRequest
  | notFound
  deriving Repr, DecidableEq

/-- Modelled from the spec: recipe creation (`recipe/views.py` +
`recipe/serializers.py`).  The scalar fields are required, relation
lists default to empty, relation ids must be owned by the caller, and
the owner field is stamped to the caller regardless of the payload
(spec 4.1); the image is attached only post-creation (spec 3). -/
def createRecipeApi (s : AppState) (caller : Nat) (p : RecipePayload) :
    MutResult × AppState :=
  match p.title, p.time_minutes, p.price with
  | some t, some tm, some pr =>
    if ownsAllTags s caller (p.tags.getD []) &&
        ownsAllIngs s caller (p.ingredients.getD []) then
      let r : Recipe :=
        { id := nextRecipeId s, owner := caller, title := t,
          time_minutes := tm, price := pr, link := p.link, image := none,
          tags := p.tags.getD [], ingredients := p.ingredients.getD [] }
      (.created, { s with recipes := r :: s.recipes })
    else (.badRequest, s)
  | _, _, _ => (.badRequest, s)

/-- Modelled from the spec: the serializer's partial-update semantics
(spec 4.3): a scalar field present in the payload takes its value, an
absent one is unchanged; "a relation key that is absent from the
payload leaves that relation untouched while a relation key present
with an empty list clears it".  Owner, id and image are never touched
by a write payload. -/
def partialUpdate (r : Recipe) (p : RecipePayload) : Recipe :=
  { r with
    title := p.title.getD r.title,
    time_minutes := p.time_minutes.getD r.time_minutes,
    price := p.price.getD r.price,
    link := match p.link with | none => r.link | some l => some l,
    tags := p.tags.getD r.tags,
    ingredients := p.ingredients.getD r.ingredients }

/-- Modelled from the spec: the serializer's full-replace semantics
(spec 4.3 and 3): all scalar fields are replaced by the payload's
values and "an absent relation key resets it to empty".  Owner, id and
image are never touched by a write payload. -/
def fullReplace (r : Recipe) (title : String) (tm pr : Nat)
    (link : Option String) (tagIds ingIds : Option (List Nat)) : Recipe :=
  { r with
    title := title, time_minutes := tm, price := pr, link := link,
    tags := tagIds.getD [], ingredients := ingIds.getD [] }

/-- Modelled from the spec: the PATCH endpoint (`recipe/views.py`):
owner-restricted lookup (404 outside the caller's set), relation ids
checked for ownership, then the partial-update semantics applied to
the addressed row. -/
def patchRecipeApi (s : AppState) (caller rid : Nat) (p : RecipePayload) :
    MutResult × AppState :=
  match findOwnedRecipe s caller rid with
  | none => (.notFound, s)
  | some _ =>
    if ownsAllTags s caller (p.tags.getD []) &&
        ownsAllIngs s caller (p.ingredients.getD []) then
      (.ok, { s with recipes := s.recipes.map (fun r =>
        if r.id == rid && r.owner == caller then partialUpdate r p else r) })
    else (.badRequest, s)

/-- Modelled from the spec: the PUT endpoint (`recipe/views.py`):
owner-restricted lookup, required scalar fields, ownership check on
relation ids, then the full-replace semantics applied to the addressed
row. -/
def putRecipeApi (s : AppState) (caller rid : Nat) (p : RecipePayload) :
    MutResult × AppState :=
  match findOwnedRecipe s caller rid with
  | none => (.notFound, s)
  | some _ =>
    match p.title, p.time_minutes, p.price with
    | some t, some tm, some pr =>
      if ownsAllTags s caller (p.tags.getD []) &&
          ownsAllIngs s caller (p.ingredients.getD []) then
        (.ok, { s with recipes := s.recipes.map (fun r =>
          if r.id == rid && r.owner == caller then
            fullReplace r t tm pr p.link p.tags p.ingredients
          else r) })
      else (.badRequest, s)
    | _, _, _ => (.badRequest, s)

/-- Modelled from the spec: the DELETE endpoint (`recipe/views.py`):
owner-restricted lookup, then removal of the addressed row. -/
def deleteRecipeApi (s : AppState) (caller rid : Nat) :
    MutResult × AppState :=
  match findOwnedRecipe s caller rid with
  | none => (.notFound, s)
  | some _ =>
    (.ok, { s with recipes := s.recipes.filter (fun r =>
      !(r.id == rid && r.owner == caller)) })

/-- The extension of a filename: everything after the last dot
(spelled out over the character list so that concrete instances
evaluate). -/
def fileExt (filename : String) : String :=
  String.mk ((filename.data.splitOn '.').getLastD [])

/-- Modelled from the spec: `core/models.py`'s
`recipe_image_file_path` is not in the source tree.  Spec 4.4: "given
a target entity and an uploaded filename, compute a storage path by
extracting the filename's extension, generating a fresh random unique
identifier, and producing `uploads/recipe/<uuid>.<ext>`"; "no
dependency on the entity's existing state beyond the extension of the
supplied filename".  The freshly generated identifier is passed as the
`uuid` argument because random generation is an external effect (the
repository's test mocks `uuid.uuid4` the same way). -/
def recipe_image_file_path (inst : Option Recipe)
    (uuid filename : String) : String :=
  "uploads/recipe/" ++ uuid ++ "." ++ fileExt filename

/-- An uploaded file: its original name and whether it decodes as a
valid image (image decoding is an external collaborator in the spec;
only the verdict matters). -/
structure UploadedFile where
  valid : Bool
  filename : String
  deriving Repr, DecidableEq

/-- Modelled from the spec: the image-upload endpoint
(`recipe/views.py`): owner-restricted lookup, 400 with no state change
when the payload is not a valid image (spec 8: "returns a 400 and
leaves the recipe's image field unset"), otherwise the image reference
is set to the generated storage path. -/
def uploadImageApi (s : AppState) (caller rid : Nat) (uuid : String)
    (f : UploadedFile) : MutResult × AppState :=
  match findOwnedRecipe s caller rid with
  | none => (.notFound, s)
  | some _ =>
    if f.valid then
      (.ok, { s with recipes := s.recipes.map (fun r =>
        if r.id == rid && r.owner == caller then
          { r with image := some (recipe_image_file_path (some r) uuid f.filename) }
        else r) })
    else (.badRequest, s)

/-! Concrete fixtures mirroring the repository's test data, used to
exercise the theorems on closed instances. -/

/-- The empty initial state. -/
def demoEmpty : AppState :=
  { users := [], tags := [], ingredients := [], recipes := [] }

/-- The authenticated test user (`sad@sad.com`). -/
def alice : User :=
  { id := 1, email := "sad@sad.com", name := "SADD", password := "testpass",
    is_active := true, is_staff := false, is_superuser := false }

/-- A second user (`khad@khad.com`). -/
def bob : User :=
  { id := 2, email := "khad@khad.com", name := "KHAD",
    password := "khadra123", is_active := true, is_staff := false,
    is_superuser := false }

/-- A tag owned by the first user. -/
def tagVegan : Tag := { id := 1, owner := 1, name := "Vegan" }

/-- A second tag owned by the first user. -/
def tagVegetarian : Tag := { id := 2, owner := 1, name := "Vegetarian" }

/-- An ingredient owned by the first user. -/
def ingFeta : Ingredient := { id := 1, owner := 1, name := "Feta cheese" }

/-- A recipe of the first user linked to the first tag. -/
def recipeCurry : Recipe :=
  { id := 1, owner := 1, title := "Thai vegetable curry",
    time_minutes := 10, price := 5, link := none, image := none,
    tags := [1], ingredients := [1] }

/-- A recipe of the first user linked to the second tag. -/
def recipeTahini : Recipe :=
  { id := 2, owner := 1, title := "Aubergine with tahini",
    time_minutes := 10, price := 5, link := none, image := none,
    tags := [2], ingredients := [] }

/-- A recipe of the first user linked to no tag. -/
def recipeFish : Recipe :=
  { id := 3, owner := 1, title := "Fish and chips", time_minutes := 10,
    price := 5, link := none, image := none, tags := [],
    ingredients := [] }

/-- A recipe owned by the second user. -/
def recipeBobs : Recipe :=
  { id := 4, owner := 2, title := "Sample recipe", time_minutes := 10,
    price := 5, link := none, image := none, tags := [],
    ingredients := [] }

/-- A populated two-user state. -/
def demoState : AppState :=
  { users := [alice, bob], tags := [tagVegan, tagVegetarian],
    ingredients := [ingFeta],
    recipes := [recipeBobs, recipeFish, recipeTahini, recipeCurry] }

/-- The user row produced by signing up `Test@EXAMPLE.com`. -/
def signupUser : User :=
  { id := 1, email := "test@example.com", name := "SADD",
    password := "saddem123", is_active := true, is_staff := false,
    is_superuser := false }

/-- The state produced by signing up `Test@EXAMPLE.com` on the empty
state. -/
def demoAfterSignup : AppState :=
  { users := [signupUser], tags := [], ingredients := [], recipes := [] }

/-- C6: for every entity argument and every filename, the image path
generator returns exactly `uploads/recipe/<uuid>.<ext>` where `<ext>`
is the supplied filename's extension, and the result is independent of
the entity argument. -/
theorem recipe_image_file_path_spec :
    ∀ (e1 e2 : Option Recipe) (uuid filename : String),
      recipe_image_file_path e1 uuid filename =
        "uploads/recipe/" ++ uuid ++ "." ++ fileExt filename ∧
      recipe_image_file_path e1 uuid filename =
        recipe_image_file_path e2 uuid filename := by
  intro e1 e2 uuid filename
  exact ⟨rfl, rfl⟩

/-- C2: the email stored at user creation is the entire input string
lower-cased, profile retrieval afterwards reports that lower-cased
email, the creation endpoint reports it in its response, and in
particular `Test@EXAMPLE.com` becomes `test@example.com`. -/
theorem user_email_normalized :
    ∀ (s : AppState) (email pw name : String),
      (create_user s email pw name).fst.email = lowerString email ∧
      meRetrieve (create_user s email pw name).snd
          (create_user s email pw name).fst.id =
        some { email := lowerString email, name := name } ∧
      (∀ pubU s2, createUserApi s email pw name = (.created pubU, s2) →
        pubU.email = lowerString email ∧
        ∃ u, u ∈ s2.users ∧ u.email = lowerString email) ∧
      lowerString "Test@EXAMPLE.com" = "test@example.com" := by
  intro s email pw name
  refine ⟨rfl, ?_, ?_, by decide⟩
  · simp [meRetrieve, create_user, normalizeEmail, publicOf]
  · intro pubU s2 h
    unfold createUserApi at h
    split at h
    · simp at h
    · split at h
      · simp at h
      · split at h
        · simp at h
        · rw [Prod.mk.injEq] at h
          obtain ⟨h1, h2⟩ := h
          rw [CreateUserResult.created.injEq] at h1
          subst h2
          refine ⟨by rw [← h1]; rfl, ?_⟩
          exact ⟨_, List.mem_cons_self _ _, rfl⟩

/-- Witness for C2 at the concrete signup of `Test@EXAMPLE.com`. -/
theorem user_email_normalized_witness :
    ({ email := "test@example.com", name := "SADD" } : PublicUser).email =
      lowerString "Test@EXAMPLE.com" ∧
    (∃ u, u ∈ demoAfterSignup.users ∧
      u.email = lowerString "Test@EXAMPLE.com") := by
  have h := user_email_normalized demoEmpty "Test@EXAMPLE.com" "saddem123" "SADD"
  exact h.2.2.1 { email := "test@example.com", name := "SADD" }
    demoAfterSignup (by decide)

/-- C7: a user-creation request with a password shorter than 6
characters is rejected with a validation error, the state is unchanged,
and no user row with the requested email is persisted. -/
theorem short_password_rejected :
    ∀ (s : AppState) (email pw name : String), pw.length < 6 →
      (createUserApi s email pw name).fst = .badRequest ∧
      (createUserApi s email pw name).snd = s ∧
      (emailTaken s (normalizeEmail email) = false →
        emailTaken (createUserApi s email pw name).snd
          (normalizeEmail email) = false) := by
  intro s email pw name h
  unfold createUserApi
  by_cases he : email = ""
  · rw [if_pos he]
    exact ⟨rfl, rfl, fun h2 => h2⟩
  · rw [if_neg he, if_pos h]
    exact ⟨rfl, rfl, fun h2 => h2⟩

/-- Witness for C7 at the repository test's 4-character password. -/
theorem short_password_rejected_witness :
    (createUserApi demoEmpty "sad@sad.com" "sadd" "SADD").fst =
      CreateUserResult.badRequest ∧
    emailTaken (createUserApi demoEmpty "sad@sad.com" "sadd" "SADD").snd
      (normalizeEmail "sad@sad.com") = false := by
  have h := short_password_rejected demoEmpty "sad@sad.com" "sadd" "SADD"
    (by decide)
  exact ⟨h.1, h.2.2 (by decide)⟩

/-- C8: every failing token-issuance request — missing/empty credential
field, unknown email, or wrong password for an existing email —
produces the one uniform authentication-failure response (400, no
token), and a token is returned only when the email and password verify
against a stored user. -/
theorem token_failure_uniform :
    ∀ (s : AppState) (email pw : String),
      ((email = "" ∨ pw = "") → createToken s email pw = .badRequest) ∧
      ((∀ u, u ∈ s.users → u.email ≠ email) →
        createToken s email pw = .badRequest) ∧
      (∀ u, s.users.find? (fun v => v.email == email) = some u →
        u.password ≠ pw → createToken s email pw = .badRequest) ∧
      (∀ tok, createToken s email pw = .ok tok →
        ∃ u, u ∈ s.users ∧ u.email = email ∧ u.password = pw ∧
          tok = tokenFor u) := by
  intro s email pw
  refine ⟨?_, ?_, ?_, ?_⟩
  · intro h
    unfold createToken
    rw [if_pos h]
  · intro h
    unfold createToken
    by_cases hc : email = "" ∨ pw = ""
    · rw [if_pos hc]
    · rw [if_neg hc]
      have hfind : s.users.find? (fun u => u.email == email) = none := by
        rw [List.find?_eq_none]
        intro u hu
        simpa [beq_iff_eq] using h u hu
      rw [hfind]
  · intro u hfind hne
    unfold createToken
    by_cases hc : email = "" ∨ pw = ""
    · rw [if_pos hc]
    · rw [if_neg hc, hfind]
      have hp : (u.password == pw) = false := by
        simpa [beq_eq_false_iff_ne] using hne
      simp [hp]
  · intro tok h
    unfold createToken at h
    by_cases hc : email = "" ∨ pw = ""
    · rw [if_pos hc] at h
      simp at h
    · rw [if_neg hc] at h
      cases hfind : s.users.find? (fun u => u.email == email) with
      | none =>
        rw [hfind] at h
        simp at h
      | some u =>
        rw [hfind] at h
        have h2 : (if (u.password == pw) = true then TokenResult.ok (tokenFor u)
            else TokenResult.badRequest) = TokenResult.ok tok := h
        by_cases hp : (u.password == pw) = true
        · rw [if_pos hp] at h2
          refine ⟨u, List.mem_of_find?_eq_some hfind, ?_, ?_, ?_⟩
          · simpa [beq_iff_eq] using List.find?_some hfind
          · simpa [beq_iff_eq] using hp
          · injection h2 with h3
            exact h3.symm
        · rw [if_neg hp] at h2
          simp at h2

/-- Witness for C8: the three failure modes on the demo state produce
the same value, and the valid credentials produce the token bound to
the stored user. -/
theorem token_failure_uniform_witness :
    createToken demoState "sad@sad.com" "" = TokenResult.badRequest ∧
    createToken demoState "nouser@x.com" "testpass" = TokenResult.badRequest ∧
    createToken demoState "sad@sad.com" "saddem123" = TokenResult.badRequest ∧
    (∃ u, u ∈ demoState.users ∧ u.email = "sad@sad.com" ∧
      u.password = "testpass" ∧ "token:1" = tokenFor u) := by
  have h1 := token_failure_uniform demoState "sad@sad.com" ""
  have h2 := token_failure_uniform demoState "nouser@x.com" "testpass"
  have h3 := token_failure_uniform demoState "sad@sad.com" "saddem123"
  have h4 := token_failure_uniform demoState "sad@sad.com" "testpass"
  exact ⟨h1.1 (Or.inr rfl), h2.2.1 (by decide),
    h3.2.2.1 alice (by decide) (by decide),
    h4.2.2.2 "token:1" (by decide)⟩

/-- C9: uploading a payload that is not a valid image to the image
endpoint of an existing owned recipe returns 400, leaves the state
unchanged, and the recipe row (in particular its image field) is
exactly as before. -/
theorem invalid_image_upload_rejected :
    ∀ (s : AppState) (caller rid : Nat) (uuid : String) (f : UploadedFile)
      (r : Recipe),
      findOwnedRecipe s caller rid = some r → f.valid = false →
      uploadImageApi s caller rid uuid f = (.badRequest, s) ∧
      detailRecipeApi (uploadImageApi s caller rid uuid f).snd caller rid =
        some r := by
  intro s caller rid uuid f r hf hv
  constructor
  · simp [uploadImageApi, hf, hv]
  · simp [uploadImageApi, detailRecipeApi, hf, hv]

/-- Witness for C9 at the repository test's `notimage` payload. -/
theorem invalid_image_upload_rejected_witness :
    uploadImageApi demoState 1 1 "u" { valid := false, filename := "notimage" } =
      (MutResult.badRequest, demoState) ∧
    detailRecipeApi
        (uploadImageApi demoState 1 1 "u"
          { valid := false, filename := "notimage" }).snd 1 1 =
      some recipeCurry :=
  invalid_image_upload_rejected demoState 1 1 "u"
    { valid := false, filename := "notimage" } recipeCurry (by decide) rfl

/-- The PATCH payload of the repository's partial-update test: a title
and a tags ID list, nothing else. -/
def patchTitleTags (ownerF : Option Nat) (newTitle : String)
    (tagIds : List Nat) : RecipePayload :=
  { owner := ownerF, title := some newTitle, time_minutes := none,
    price := none, link := none, tags := some tagIds, ingredients := none }

/-- The PUT payload of the repository's full-update test: the three
required scalar fields, no relation keys. -/
def putTitleTimePrice (ownerF : Option Nat) (t : String) (tm pr : Nat) :
    RecipePayload :=
  { owner := ownerF, title := some t, time_minutes := some tm,
    price := some pr, link := none, tags := none, ingredients := none }

/-- C4: a partial update whose payload holds a title and a tags ID list
sets exactly those — the tag set becomes the supplied list and the
title the supplied string — while every field not in the payload
(time_minutes, price, link, image, owner, id, ingredients) is
unchanged; the PATCH endpoint answers 200 and stores that updated
row. -/
theorem patch_title_tags_frame :
    ∀ (s : AppState) (caller : Nat) (r : Recipe) (newTitle : String)
      (tagIds : List Nat) (ownerF : Option Nat),
      ((partialUpdate r (patchTitleTags ownerF newTitle tagIds)).title = newTitle ∧
        (partialUpdate r (patchTitleTags ownerF newTitle tagIds)).tags = tagIds ∧
        (partialUpdate r (patchTitleTags ownerF newTitle tagIds)).time_minutes = r.time_minutes ∧
        (partialUpdate r (patchTitleTags ownerF newTitle tagIds)).price = r.price ∧
        (partialUpdate r (patchTitleTags ownerF newTitle tagIds)).link = r.link ∧
        (partialUpdate r (patchTitleTags ownerF newTitle tagIds)).image = r.image ∧
        (partialUpdate r (patchTitleTags ownerF newTitle tagIds)).owner = r.owner ∧
        (partialUpdate r (patchTitleTags ownerF newTitle tagIds)).id = r.id ∧
        (partialUpdate r (patchTitleTags ownerF newTitle tagIds)).ingredients = r.ingredients) ∧
      (r ∈ s.recipes → r.owner = caller →
        ownsAllTags s caller tagIds = true →
        (patchRecipeApi s caller r.id (patchTitleTags ownerF newTitle tagIds)).fst = .ok ∧
        partialUpdate r (patchTitleTags ownerF newTitle tagIds) ∈
          (patchRecipeApi s caller r.id (patchTitleTags ownerF newTitle tagIds)).snd.recipes) := by
  intro s caller r newTitle tagIds ownerF
  refine ⟨⟨rfl, rfl, rfl, rfl, rfl, rfl, rfl, rfl, rfl⟩, ?_⟩
  intro hmem howner htags
  have hfind : (s.recipes.find? (fun x => x.id == r.id && x.owner == caller)).isSome := by
    rw [List.find?_isSome]
    exact ⟨r, hmem, by simp [howner]⟩
  obtain ⟨a, ha⟩ := Option.isSome_iff_exists.mp hfind
  constructor
  · simp [patchRecipeApi, findOwnedRecipe, ha, patchTitleTags, htags, ownsAllIngs]
  · simp only [patchRecipeApi, findOwnedRecipe, ha, patchTitleTags, htags,
      ownsAllIngs]
    simp only [Option.getD_some, Option.getD_none, List.all_nil,
      Bool.and_true, htags, if_true]
    refine List.mem_map.mpr ⟨r, hmem, ?_⟩
    simp [howner, patchTitleTags]

/-- Witness for C4 at the repository test's payload
(`title=Chicken tikka, tags=[2]`) on the demo state. -/
theorem patch_title_tags_frame_witness :
    (patchRecipeApi demoState 1 1 (patchTitleTags none "Chicken tikka" [2])).fst =
      MutResult.ok ∧
    partialUpdate recipeCurry (patchTitleTags none "Chicken tikka" [2]) ∈
      (patchRecipeApi demoState 1 1
        (patchTitleTags none "Chicken tikka" [2])).snd.recipes :=
  (patch_title_tags_frame demoState 1 recipeCurry "Chicken tikka" [2] none).2
    (by decide) rfl (by decide)

/-- C5: a full update whose payload omits the tags key leaves the
recipe with zero tags linked (and zero ingredients), while the supplied
scalar fields take the payload's values and owner, id and image are
untouched; the PUT endpoint answers 200 and stores that replaced
row. -/
theorem put_absent_tags_cleared :
    ∀ (s : AppState) (caller : Nat) (r : Recipe) (t : String) (tm pr : Nat)
      (ownerF : Option Nat),
      r.tags ≠ [] →
      ((fullReplace r t tm pr none none none).tags = [] ∧
        (fullReplace r t tm pr none none none).ingredients = [] ∧
        (fullReplace r t tm pr none none none).title = t ∧
        (fullReplace r t tm pr none none none).time_minutes = tm ∧
        (fullReplace r t tm pr none none none).price = pr ∧
        (fullReplace r t tm pr none none none).link = none ∧
        (fullReplace r t tm pr none none none).owner = r.owner ∧
        (fullReplace r t tm pr none none none).id = r.id ∧
        (fullReplace r t tm pr none none none).image = r.image) ∧
      (r ∈ s.recipes → r.owner = caller →
        (putRecipeApi s caller r.id (putTitleTimePrice ownerF t tm pr)).fst = .ok ∧
        fullReplace r t tm pr none none none ∈
          (putRecipeApi s caller r.id (putTitleTimePrice ownerF t tm pr)).snd.recipes) := by
  intro s caller r t tm pr ownerF hne
  refine ⟨⟨rfl, rfl, rfl, rfl, rfl, rfl, rfl, rfl, rfl⟩, ?_⟩
  intro hmem howner
  have hfind : (s.recipes.find? (fun x => x.id == r.id && x.owner == caller)).isSome := by
    rw [List.find?_isSome]
    exact ⟨r, hmem, by simp [howner]⟩
  obtain ⟨a, ha⟩ := Option.isSome_iff_exists.mp hfind
  constructor
  · simp [putRecipeApi, findOwnedRecipe, ha, putTitleTimePrice, ownsAllTags,
      ownsAllIngs]
  · simp only [putRecipeApi, findOwnedRecipe, ha, putTitleTimePrice,
      ownsAllTags, ownsAllIngs]
    simp only [Option.getD_none, List.all_nil, Bool.and_self, if_true]
    refine List.mem_map.mpr ⟨r, hmem, ?_⟩
    simp [howner, fullReplace]

/-- Witness for C5 at the repository test's payload
(`title=Spaghetti carbonara, time_minutes=25, price=5`) on the demo
state, starting from a recipe with one tag linked. -/
theorem put_absent_tags_cleared_witness :
    (putRecipeApi demoState 1 1 (putTitleTimePrice none "Spaghetti carbonara" 25 5)).fst =
      MutResult.ok ∧
    fullReplace recipeCurry "Spaghetti carbonara" 25 5 none none none ∈
      (putRecipeApi demoState 1 1
        (putTitleTimePrice none "Spaghetti carbonara" 25 5)).snd.recipes :=
  (put_absent_tags_cleared demoState 1 recipeCurry "Spaghetti carbonara" 25 5
    none (by decide)).2 (by decide) rfl

/-- C3: with a non-empty tag ID list as the tags parameter, the recipe
list contains exactly the caller's recipes linked to at least one of
the given tags (set union) and still satisfying whatever ingredient
filter is in force; every recipe linked to none of the given tags is
excluded whatever the ingredient filter; and each recipe appears at
most once. -/
theorem recipe_tag_filter_union :
    ∀ (s : AppState) (caller : Nat) (tagIds : List Nat)
      (ingF : Option (List Nat)),
      tagIds ≠ [] →
      (∀ r, r ∈ recipeListFiltered s caller (some tagIds) ingF ↔
        (r ∈ s.recipes ∧ r.owner = caller ∧
          (∃ t, t ∈ tagIds ∧ t ∈ r.tags) ∧
          matchesIds ingF r.ingredients = true)) ∧
      (∀ r, r ∈ s.recipes → r.owner = caller →
        (∀ t, t ∈ tagIds → t ∉ r.tags) →
        r ∉ recipeListFiltered s caller (some tagIds) ingF) ∧
      (s.recipes.Nodup → (recipeListFiltered s caller (some tagIds) ingF).Nodup) := by
  intro s caller tagIds ingF hne
  have hmem : ∀ r, r ∈ recipeListFiltered s caller (some tagIds) ingF ↔
      (r ∈ s.recipes ∧ r.owner = caller ∧
        (∃ t, t ∈ tagIds ∧ t ∈ r.tags) ∧
        matchesIds ingF r.ingredients = true) := by
    intro r
    rw [recipeListFiltered, List.mem_filter]
    constructor
    · rintro ⟨h1, h2⟩
      rw [Bool.and_eq_true, Bool.and_eq_true] at h2
      obtain ⟨⟨ho, ht⟩, hi⟩ := h2
      refine ⟨h1, by simpa using ho, ?_, hi⟩
      have hany : tagIds.any (fun i => r.tags.contains i) = true := ht
      rw [List.any_eq_true] at hany
      obtain ⟨t, ht1, ht2⟩ := hany
      exact ⟨t, ht1, by simpa using ht2⟩
    · rintro ⟨h1, ho, ⟨t, ht1, ht2⟩, hi⟩
      refine ⟨h1, ?_⟩
      rw [Bool.and_eq_true, Bool.and_eq_true]
      refine ⟨⟨by simpa using ho, ?_⟩, hi⟩
      show tagIds.any (fun i => r.tags.contains i) = true
      rw [List.any_eq_true]
      exact ⟨t, ht1, by simpa using ht2⟩
  refine ⟨hmem, ?_, ?_⟩
  · intro r hr ho hnone hin
    rw [hmem] at hin
    obtain ⟨_, _, ⟨t, ht1, ht2⟩, _⟩ := hin
    exact hnone t ht1 ht2
  · intro hnd
    exact hnd.filter _

/-- Witness for C3 on the demo state: filtering by tags 1 and 2 keeps
the two recipes linked to one of them and excludes the one linked to
neither. -/
theorem recipe_tag_filter_union_witness :
    recipeCurry ∈ recipeListFiltered demoState 1 (some [1, 2]) none ∧
    recipeTahini ∈ recipeListFiltered demoState 1 (some [1, 2]) none ∧
    recipeFish ∉ recipeListFiltered demoState 1 (some [1, 2]) none := by
  have h := recipe_tag_filter_union demoState 1 [1, 2] none (by decide)
  refine ⟨?_, ?_, ?_⟩
  · exact (h.1 recipeCurry).mpr
      ⟨by decide, rfl, ⟨1, by decide, by decide⟩, by decide⟩
  · exact (h.1 recipeTahini).mpr
      ⟨by decide, rfl, ⟨2, by decide, by decide⟩, by decide⟩
  · exact h.2.1 recipeFish (by decide) rfl (by decide)

/-- C1: per-owner visibility, in every state (hence after every
operation): for distinct users A and B, a Tag, Ingredient or Recipe row
owned by A never appears in B's list responses; any retrieve, update,
delete or image upload by B addressing by ID a row held only by A is
answered not-found with the state unchanged; creation stamps the
caller as owner of every new row, so rows created by A are owned by
A. -/
theorem ownership_isolation :
    ∀ (s : AppState) (A B : Nat), A ≠ B →
      (∀ t, t ∈ s.tags → t.owner = A → t ∉ listTags s B) ∧
      (∀ i, i ∈ s.ingredients → i.owner = A → i ∉ listIngredients s B) ∧
      (∀ r tf igf, r ∈ s.recipes → r.owner = A →
        r ∉ recipeListFiltered s B tf igf) ∧
      (∀ rid, (∀ r, r ∈ s.recipes → r.id = rid → r.owner = A) →
        detailRecipeApi s B rid = none ∧
        (∀ p, patchRecipeApi s B rid p = (.notFound, s)) ∧
        (∀ p, putRecipeApi s B rid p = (.notFound, s)) ∧
        deleteRecipeApi s B rid = (.notFound, s) ∧
        (∀ uuid f, uploadImageApi s B rid uuid f = (.notFound, s))) ∧
      (∀ p res st2, createRecipeApi s A p = (res, st2) →
        ∀ r, r ∈ st2.recipes → r ∉ s.recipes → r.owner = A) ∧
      (∀ nm, (createTagApi s A nm).fst.owner = A) ∧
      (∀ nm, (createIngredientApi s A nm).fst.owner = A) := by
  intro s A B hAB
  refine ⟨?_, ?_, ?_, ?_, ?_, fun nm => rfl, fun nm => rfl⟩
  · intro t ht hA hin
    rw [listTags, List.mem_filter] at hin
    exact hAB (by rw [← hA]; simpa using hin.2)
  · intro i hi hA hin
    rw [listIngredients, List.mem_filter] at hin
    exact hAB (by rw [← hA]; simpa using hin.2)
  · intro r tf igf hr hA hin
    rw [recipeListFiltered, List.mem_filter, Bool.and_eq_true,
      Bool.and_eq_true] at hin
    exact hAB (by rw [← hA]; simpa using hin.2.1.1)
  · intro rid hAll
    have hfind : s.recipes.find? (fun r => r.id == rid && r.owner == B) = none := by
      rw [List.find?_eq_none]
      intro r hr
      simp only [Bool.and_eq_true, beq_iff_eq, not_and]
      intro hid hB
      exact hAB (by rw [← hAll r hr hid, hB])
    refine ⟨hfind, ?_, ?_, ?_, ?_⟩
    · intro p
      unfold patchRecipeApi findOwnedRecipe
      rw [hfind]
    · intro p
      unfold putRecipeApi findOwnedRecipe
      rw [hfind]
    · unfold deleteRecipeApi findOwnedRecipe
      rw [hfind]
    · intro uuid f
      unfold uploadImageApi findOwnedRecipe
      rw [hfind]
  · intro p res st2 h r hr hnot
    unfold createRecipeApi at h
    split at h
    · split at h
      · rw [Prod.mk.injEq] at h
        obtain ⟨h1, h2⟩ := h
        rw [← h2] at hr
        rcases List.mem_cons.mp hr with heq | hold
        · rw [heq]
        · exact absurd hold hnot
      · rw [Prod.mk.injEq] at h
        rw [← h.2] at hr
        exact absurd hr hnot
    · rw [Prod.mk.injEq] at h
      rw [← h.2] at hr
      exact absurd hr hnot

/-- Witness for C1 on the demo state: user 2 neither sees nor can
address user 1's rows, and creation by user 1 stamps user 1 as
owner. -/
theorem ownership_isolation_witness :
    tagVegan ∉ listTags demoState 2 ∧
    ingFeta ∉ listIngredients demoState 2 ∧
    recipeCurry ∉ recipeListFiltered demoState 2 none none ∧
    detailRecipeApi demoState 2 1 = none ∧
    deleteRecipeApi demoState 2 1 = (MutResult.notFound, demoState) ∧
    (createTagApi demoState 1 "Curry").fst.owner = 1 := by
  have h := ownership_isolation demoState 1 2 (by decide)
  have h4 := h.2.2.2.1 1 (by decide)
  exact ⟨h.1 tagVegan (by decide) rfl, h.2.1 ingFeta (by decide) rfl,
    h.2.2.1 recipeCurry none none (by decide) rfl, h4.1, h4.2.2.2.1,
    h.2.2.2.2.2.1 "Curry"⟩

end RecipeApp
